import Mathlib

/-!
Verification development for the DQN / CategoricalDQN optimization layer
(`rlpyt/algos/dqn/dqn.py`, `rlpyt/algos/dqn/cat_dqn.py`).

Tensors with a leading batch dimension are modelled as `List ℚ` (or
`List (List ℚ)` for distributional probabilities); Python floats are
modelled as `ℚ`; fallible Python code (raise / assert / division by zero)
is modelled with `Option` / `Except`.  The agent's neural-network forward
passes, the replay buffer's stochastic sampling and the gradient step are
external collaborators of this code; they are modelled as explicit oracle
functions, while every branch, arithmetic expression and call sequence of
the two algorithm files is translated directly from the source.
-/

/-- torch.clamp: `min (max x lo) hi`. -/
def clampQ (x lo hi : ℚ) : ℚ := min (max x lo) hi

/-- Python `.float()` conversion of a boolean tensor entry. -/
def b2q (b : Bool) : ℚ := if b then 1 else 0

/-- torch.mean over a 1-D tensor. -/
def listMean (l : List ℚ) : ℚ := l.sum / l.length

/-- Constant `EPS = 1e-6` (NaN-guard) from `cat_dqn.py`. -/
def EPS : ℚ := 1 / 1000000

/-- Python slicing `l[::8]` (every 8th element, starting at index 0),
used to downsample `td_abs_errors` for logging. -/
def sliceStride8 (l : List ℚ) : List ℚ :=
  ((List.range l.length).zip l).filterMap
    (fun p => if p.1 % 8 = 0 then some p.2 else none)

/-- torch.tensordot with dims=1 on 1-D tensors (dot product). -/
def dotQ (a b : List ℚ) : ℚ := (List.zipWith (fun x y => x * y) a b).sum

/-- torch.argmax over a 1-D tensor: index of the first maximal entry. -/
def argmaxIdx (l : List ℚ) : ℕ :=
  match l with
  | [] => 0
  | x :: xs =>
      (xs.foldl
        (fun (acc : ℕ × ℚ × ℕ) y =>
          if acc.2.1 < y then (acc.2.2, y, acc.2.2 + 1)
          else (acc.1, acc.2.1, acc.2.2 + 1))
        ((0 : ℕ), x, (1 : ℕ))).1

/-- torch.max over a 1-D tensor (`dim=-1` reduction of one row). -/
def maxListQ : List ℚ → ℚ
  | [] => 0
  | x :: xs => xs.foldl max x

/-- Selection `select_at_indexes` on one row: the tensor entry at an integer index
(indices produced by the sampler/argmax are in range). -/
def getQ (l : List ℚ) (i : ℕ) : ℚ := l.getD i 0

/-- torch.linspace lo hi n. -/
def linspaceQ (lo hi : ℚ) (n : ℕ) : List ℚ :=
  if n ≤ 1 then [lo]
  else (List.range n).map (fun i => lo + (hi - lo) * i / ((n : ℚ) - 1))

/-- Python `round` (banker's rounding: ties go to the even integer). -/
def pyRound (q : ℚ) : ℤ :=
  let f := Int.floor q
  let r := q - f
  if r < 1 / 2 then f
  else if 1 / 2 < r then f + 1
  else if 2 ∣ f then f else f + 1

/-- Fields of `samples.env` of the sampler batch. -/
structure EnvSamples where
  observation : List ℚ
  reward : List ℚ
  done : List Bool
deriving DecidableEq

/-- Fields of `samples.agent` of the sampler batch. -/
structure AgentSamples where
  action : List ℕ
deriving DecidableEq

/-- The sampler batch passed to `optimize_agent`. -/
structure Samples where
  env : EnvSamples
  agent : AgentSamples
deriving DecidableEq

/-- The `SamplesToBuffer` namedarraytuple of dqn.py. -/
structure SamplesToBuffer where
  observation : List ℚ
  action : List ℕ
  reward : List ℚ
  done : List Bool
deriving DecidableEq

/-- Method `DQN.samples_to_buffer`: extracts the four stored fields. -/
def samples_to_buffer (s : Samples) : SamplesToBuffer :=
  { observation := s.env.observation
    action := s.agent.action
    reward := s.env.reward
    done := s.env.done }

/-- A batch returned by `replay_buffer.sample_batch` (the fields the two
loss functions read; `agent_inputs` / `target_inputs` are consumed only by
the agent oracle, so they are not reproduced here). -/
structure ReplayBatch where
  return_ : List ℚ
  done : List Bool
  done_n : List Bool
  action : List ℕ
  is_weights : List ℚ
deriving DecidableEq

/-- The `OptInfo` namedtuple of dqn.py. -/
structure OptInfo where
  loss : List ℚ
  gradNorm : List ℚ
  tdAbsErr : List ℚ
deriving DecidableEq

/-- Method `DQN._get_empty_optim_info`. -/
def emptyOptInfo : OptInfo := { loss := [], gradNorm := [], tdAbsErr := [] }

/-- Observable calls made by the algorithm into its collaborators
(replay buffer and agent), in program order. -/
inductive BufEvent where
  | appendSamples (s : SamplesToBuffer)
  | sampleBatch (b : ReplayBatch)
  | updateBatchPriorities (e : List ℚ)
  | setBeta (v : ℚ)
  | updateTarget (tau : ℚ)
deriving DecidableEq

def isSampleEv : BufEvent → Bool
  | BufEvent.sampleBatch _ => true
  | _ => false

def isUpdPriEv : BufEvent → Bool
  | BufEvent.updateBatchPriorities _ => true
  | _ => false

def isAppendEv : BufEvent → Bool
  | BufEvent.appendSamples _ => true
  | _ => false

def isPriEv (e : BufEvent) : Bool := isSampleEv e || isUpdPriEv e

/-- The subsequence of sample / priority-update calls of a trace. -/
def priEvents (evs : List BufEvent) : List BufEvent := evs.filter isPriEv

def containsSampleEv (evs : List BufEvent) : Bool := evs.any isSampleEv
def containsUpdPriEv (evs : List BufEvent) : Bool := evs.any isUpdPriEv
def containsAppendEv (evs : List BufEvent) : Bool := evs.any isAppendEv

/-- The replay buffer as seen by this algorithm file: the appended data,
a deterministic oracle stream standing for its stochastic `sample_batch`
(the k-th call returns `sampleStream k`), and the annealed beta. -/
structure ReplayState where
  data : List SamplesToBuffer
  sampleStream : ℕ → ReplayBatch
  sampleCount : ℕ
  beta : ℚ

/-- Call `replay_buffer.sample_batch` (external collaborator): draws the next
batch from the oracle stream. -/
def sample_batch (rs : ReplayState) : ReplayBatch × ReplayState :=
  (rs.sampleStream rs.sampleCount, { rs with sampleCount := rs.sampleCount + 1 })

/-- Buffer contents after `append_samples` was (or was not) called. -/
def appendRS (samples : Option Samples) (rs : ReplayState) : ReplayState :=
  match samples with
  | none => rs
  | some s => { rs with data := rs.data ++ [samples_to_buffer s] }

/-- The append events emitted by `add_samples_to_buffer`. -/
def appendEvs (samples : Option Samples) : List BufEvent :=
  match samples with
  | none => []
  | some s => [BufEvent.appendSamples (samples_to_buffer s)]

/-- Method `DQN.add_samples_to_buffer`: `assert itr >= 0`, then
`append_samples` iff samples were provided (`none` models the
AssertionError). -/
def add_samples_to_buffer (itr : ℤ) (samples : Option Samples)
    (rs : ReplayState) : Option (ReplayState × List BufEvent) :=
  if 0 ≤ itr then some (appendRS samples rs, appendEvs samples) else none

/-- Construction-time arguments of `DQN.__init__` that the excerpted code
reads (torch optimizer objects are external and not reproduced). -/
structure DQNConfig where
  discount : ℚ
  batch_size : ℕ
  min_steps_learn : ℕ
  delta_clip : Option ℚ
  replay_size : ℕ
  replay_ratio : ℚ
  target_update_tau : ℚ
  target_update_interval : ℕ
  n_step_return : ℕ
  learning_rate : ℚ
  clip_grad_norm : ℚ
  eps_steps : ℕ
  double_dqn : Bool
  prioritized_replay : Bool
  pri_alpha : ℚ
  pri_beta_init : ℚ
  pri_beta_final : ℚ
  pri_beta_steps : ℕ
  default_priority : Option ℚ
  ReplayBufferCls : Option ℕ
  updates_per_sync : ℕ
deriving DecidableEq

/-- Resolution in `DQN.__init__`: `if default_priority is None: default_priority = delta_clip`. -/
def resolve_default_priority (default_priority delta_clip : Option ℚ) : Option ℚ :=
  match default_priority with
  | some v => some v
  | none => delta_clip

/-- The post-`__init__` configuration (only the `default_priority`
resolution mutates the saved arguments). -/
def DQN_mk (cfg : DQNConfig) : DQNConfig :=
  { cfg with default_priority := resolve_default_priority cfg.default_priority cfg.delta_clip }

/-- Derived in `DQN.optim_initialize`:
`pri_beta_itr = max(1, pri_beta_steps // sampler_bs)`. -/
def optim_pri_beta_itr (cfg : DQNConfig) (sampler_bs : ℕ) : ℕ :=
  max 1 (cfg.pri_beta_steps / sampler_bs)

/-- The four frame-buffer classes `initialize_replay_buffer` can select. -/
inductive BaseReplayCls where
  | uniformFrame
  | prioritizedFrame
  | asyncUniformFrame
  | asyncPrioritizedFrame
deriving DecidableEq

/-- The class actually instantiated (a user-supplied `ReplayBufferCls`
overrides the internal selection; it is modelled by an opaque id). -/
inductive SelectedReplayCls where
  | base (c : BaseReplayCls)
  | custom (cid : ℕ)
deriving DecidableEq

/-- The `replay_kwargs` dict (the three prioritized-only keys are `none`
when absent; `default_priority` itself has type `Option ℚ`). -/
structure ReplayKwargs where
  size : ℕ
  envB : ℕ
  discount : ℚ
  n_step_return : ℕ
  alpha : Option ℚ
  beta : Option ℚ
  default_priority : Option (Option ℚ)
deriving DecidableEq

/-- Method `DQN.initialize_replay_buffer`: builds `replay_kwargs`, adds the
prioritized keys iff `prioritized_replay`, selects the class from the
`(prioritized_replay, async_)` flags, then lets an explicitly provided
`ReplayBufferCls` override the selection. -/
def init_replay_buffer (cfg : DQNConfig) (envB : ℕ) (async_ : Bool) :
    SelectedReplayCls × ReplayKwargs :=
  let kw0 : ReplayKwargs :=
    { size := cfg.replay_size
      envB := envB
      discount := cfg.discount
      n_step_return := cfg.n_step_return
      alpha := none
      beta := none
      default_priority := none }
  let kw :=
    if cfg.prioritized_replay then
      { kw0 with
          alpha := some cfg.pri_alpha
          beta := some cfg.pri_beta_init
          default_priority := some cfg.default_priority }
    else kw0
  let cls :=
    if cfg.prioritized_replay then
      (if async_ then BaseReplayCls.asyncPrioritizedFrame else BaseReplayCls.prioritizedFrame)
    else
      (if async_ then BaseReplayCls.asyncUniformFrame else BaseReplayCls.uniformFrame)
  let sel :=
    match cfg.ReplayBufferCls with
    | some cid => SelectedReplayCls.custom cid
    | none => SelectedReplayCls.base cls
  (sel, kw)

/-- Definition following the spec's words (refinement reference for the
claim about buffer-class selection): a pure function of the two flags. -/
def specReplayClsFor (prioritized async_ : Bool) : BaseReplayCls :=
  match prioritized, async_ with
  | false, false => BaseReplayCls.uniformFrame
  | true, false => BaseReplayCls.prioritizedFrame
  | false, true => BaseReplayCls.asyncUniformFrame
  | true, true => BaseReplayCls.asyncPrioritizedFrame

/-- Huber-loss branch of `DQN._get_loss_values`:
`losses = where(abs_delta <= delta_clip, losses, delta_clip * (abs_delta - delta_clip / 2))`
(identity when `delta_clip is None`, i.e. MSE). -/
def huberize (delta_clip : Option ℚ) (delta losses : List ℚ) : List ℚ :=
  match delta_clip with
  | none => losses
  | some c => List.zipWith (fun d l => if |d| ≤ c then l else c * (|d| - c / 2)) delta losses

/-- Step `losses *= weigths` guarded by `prioritized_replay`; the `weigths`
argument is `None` exactly when the caller's `samples_is_weights` was
`None`, in which case multiplying raises a TypeError. -/
def applyPriWeights (prioritized : Bool) (losses : List ℚ)
    (weigths : Option (List ℚ)) : Except String (List ℚ) :=
  if prioritized then
    match weigths with
    | some w => Except.ok (List.zipWith (fun l wi => l * wi) losses w)
    | none => Except.error "TypeError"
  else Except.ok losses

/-- Step `td_abs_errors = clamp(td_abs_errors, 0, delta_clip)` when
`delta_clip` is set. -/
def clampTd (delta_clip : Option ℚ) (td : List ℚ) : List ℚ :=
  match delta_clip with
  | none => td
  | some c => td.map (fun e => clampQ e 0 c)

/-- Method `DQN._get_loss_values(q, done, weigths, target)`: squared / Huber
loss, importance weighting, clamped absolute TD errors.  When
`mid_batch_reset` is false the source reaches `raise NotImplementedError`
(its per-batch validity masking is commented out), modelled as
`Except.error`.  `done` is unused on the implemented path, as in the
source. -/
def DQN_get_loss_values (cfg : DQNConfig) (mid_batch_reset : Bool)
    (q : List ℚ) (done : List Bool) (weigths : Option (List ℚ))
    (target : List ℚ) : Except String (ℚ × List ℚ) :=
  let delta := List.zipWith (fun t qi => t - qi) target q
  let losses0 := delta.map (fun d => 1 / 2 * d ^ 2)
  let losses1 := huberize cfg.delta_clip delta losses0
  match applyPriWeights cfg.prioritized_replay losses1 weigths with
  | Except.error e => Except.error e
  | Except.ok losses =>
      let td := clampTd cfg.delta_clip (delta.map (fun d => |d|))
      if mid_batch_reset = false then Except.error "NotImplementedError"
      else Except.ok (listMean losses, td)

/-- Modelled from the spec: `valid_from_done` (imported by both algorithm
files from `rlpyt.algos.utils`, which is not under `src/`).  Per the
spec's validity discussion and the source's FIXME comment, it operates on
the leading dimension and returns a float mask that is 1 up to and
including the first `done=True` entry and 0 for every later entry. -/
def valid_from_done (done : List Bool) : List ℚ :=
  (List.range done.length).map (fun i => if (done.take i).any (fun b => b) then 0 else 1)

/-- Modelled from the spec: `valid_mean` (imported from
`rlpyt.utils.tensor`, not under `src/`): the valid-masked mean
`sum(x * valid) / sum(valid)`. -/
def valid_mean (x valid : List ℚ) : ℚ :=
  (List.zipWith (fun a b => a * b) x valid).sum / valid.sum

/-- Step `p = torch.clamp(p, EPS, 1)` (NaN-guard) applied row-wise. -/
def catClampP (p : List (List ℚ)) : List (List ℚ) :=
  p.map (fun row => row.map (fun x => clampQ x EPS 1))

/-- Cross-entropy rows of `CategoricalDQN._get_loss_values`:
`losses = -sum(target_p * log(p), dim=1)` with `p` NaN-guard clamped.
`log` is the (external, transcendental) torch.log, kept as a parameter. -/
def catLosses (log : ℚ → ℚ) (p target_p : List (List ℚ)) : List ℚ :=
  List.zipWith
    (fun tpRow pRow => -(List.zipWith (fun t pi => t * log pi) tpRow pRow).sum)
    target_p (catClampP p)

/-- KL rows of `CategoricalDQN._get_loss_values`:
`KL_div = sum(target_p * (log(target_p) - log(p)), dim=1)` with both
tensors NaN-guard clamped, then `clamp(KL_div, EPS, 1 / EPS)`. -/
def catKL (log : ℚ → ℚ) (p target_p : List (List ℚ)) : List ℚ :=
  (List.zipWith
      (fun tpRow pRow => (List.zipWith (fun t q' => t * (log t - log q')) tpRow pRow).sum)
      (catClampP target_p) (catClampP p)).map
    (fun k => clampQ k EPS (1 / EPS))

/-- Method `CategoricalDQN._get_loss_values(p, done, weigths, target_p)`. -/
def Cat_get_loss_values (log : ℚ → ℚ) (cfg : DQNConfig) (mid_batch_reset : Bool)
    (p : List (List ℚ)) (done : List Bool) (weigths : Option (List ℚ))
    (target_p : List (List ℚ)) : Except String (ℚ × List ℚ) :=
  match applyPriWeights cfg.prioritized_replay (catLosses log p target_p) weigths with
  | Except.error e => Except.error e
  | Except.ok losses =>
      let kl := catKL log p target_p
      if mid_batch_reset = false then
        let valid := valid_from_done done
        Except.ok (valid_mean losses valid, List.zipWith (fun k v => k * v) kl valid)
      else Except.ok (listMean losses, kl)

/-- The cross-entropy rows after the conditional importance weighting
(the successful branch of `applyPriWeights`). -/
def weightedCatLosses (cfg : DQNConfig) (log : ℚ → ℚ)
    (p target_p : List (List ℚ)) (w : List ℚ) : List ℚ :=
  if cfg.prioritized_replay then
    List.zipWith (fun l wi => l * wi) (catLosses log p target_p) w
  else catLosses log p target_p

/-- The error tensor a loss computation hands to
`update_batch_priorities` (empty when the computation raised). -/
def errsOf (r : Except String (ℚ × List ℚ)) : List ℚ :=
  match r with
  | Except.ok lt => lt.2
  | Except.error _ => []

/-- The learning target of `DQN.loss`:
`y = return_ + (1 - done_n.float()) * (discount ** n_step_return * target_q)`. -/
def dqnTargetY (discount : ℚ) (n_step_return : ℕ) (return_ : ℚ)
    (done_n : Bool) (target_q : ℚ) : ℚ :=
  return_ + (1 - b2q done_n) * (discount ^ n_step_return * target_q)

/-- One sample's contracted atom support in `CategoricalDQN.loss`:
`next_z = clamp(return_ + (1 - done_n.float()) * (z * discount ** n_step_return), V_min, V_max)`. -/
def catNextZ (discount : ℚ) (n_step_return : ℕ) (v_min v_max : ℚ)
    (z : List ℚ) (return_ : ℚ) (done_n : Bool) : List ℚ :=
  z.map (fun zj =>
    clampQ (return_ + (1 - b2q done_n) * (zj * discount ^ n_step_return)) v_min v_max)

/-- The agent's forward passes on one replay batch (external neural
network collaborator): `agent(*agent_inputs)`, `agent.target(*target_inputs)`
and `agent(*target_inputs)` (the latter read only under double DQN). -/
structure AgentOutputs where
  qs : List (List ℚ)
  target_qs : List (List ℚ)
  next_qs : List (List ℚ)

/-- Method `DQN.loss(samples)`: selects `q` at the taken actions, computes the
(double-)DQN target values, forms `y`, and defers to `_get_loss_values`;
`samples_is_weights` is `None` exactly when prioritized replay is off. -/
def dqnLoss (cfg : DQNConfig) (mid_batch_reset : Bool) (ao : AgentOutputs)
    (s : ReplayBatch) : Except String (ℚ × List ℚ) :=
  let q := List.zipWith (fun a row => getQ row a) s.action ao.qs
  let target_q :=
    if cfg.double_dqn then
      List.zipWith (fun nrow trow => getQ trow (argmaxIdx nrow)) ao.next_qs ao.target_qs
    else ao.target_qs.map maxListQ
  let y := List.zipWith
    (fun ri (dq : Bool × ℚ) => dqnTargetY cfg.discount cfg.n_step_return ri dq.1 dq.2)
    s.return_ (List.zip s.done_n target_q)
  DQN_get_loss_values cfg mid_batch_reset q s.done
    (if cfg.prioritized_replay then some s.is_weights else none) y

/-- The categorical agent's forward passes on one replay batch, plus its
configured atom count. -/
structure CatAgentOutputs where
  ps : List (List (List ℚ))
  target_ps : List (List (List ℚ))
  next_ps : List (List (List ℚ))
  n_atoms : ℕ

/-- Projection of one sample's unprojected target distribution onto the
base support: `(target_p_unproj * clamp(1 - abs(next_z - z) / delta_z, 0, 1)).sum(-1)`. -/
def catProject (z : List ℚ) (delta_z : ℚ) (next_z tp : List ℚ) : List ℚ :=
  z.map (fun zi =>
    (List.zipWith (fun nzj tpj => tpj * clampQ (1 - |nzj - zi| / delta_z) 0 1) next_z tp).sum)

/-- Method `CategoricalDQN.loss(samples)`.  In the source the
`prioritized_replay == False` branch never assigns `samples_is_weights`,
so the later use of that local raises UnboundLocalError; this is modelled
by the `none` case of the match at the `_get_loss_values` call site. -/
def catLoss (log : ℚ → ℚ) (cfg : DQNConfig) (v_min v_max : ℚ)
    (mid_batch_reset : Bool) (ao : CatAgentOutputs) (s : ReplayBatch) :
    Except String (ℚ × List ℚ) :=
  let n := ao.n_atoms
  let z := linspaceQ v_min v_max n
  let delta_z := (v_max - v_min) / ((n : ℚ) - 1)
  let next_z := List.zipWith
    (fun ri dn => catNextZ cfg.discount cfg.n_step_return v_min v_max z ri dn)
    s.return_ s.done_n
  let next_a :=
    if cfg.double_dqn then
      ao.next_ps.map (fun rows => argmaxIdx (rows.map (fun r => dotQ r z)))
    else
      ao.target_ps.map (fun rows => argmaxIdx (rows.map (fun r => dotQ r z)))
  let target_p_unproj :=
    List.zipWith (fun (rows : List (List ℚ)) a => rows.getD a []) ao.target_ps next_a
  let target_p := List.zipWith
    (fun nz tp => catProject z delta_z nz tp) next_z target_p_unproj
  let p := List.zipWith (fun (rows : List (List ℚ)) a => rows.getD a []) ao.ps s.action
  match (if cfg.prioritized_replay then some s.is_weights else none : Option (List ℚ)) with
  | none => Except.error "UnboundLocalError"
  | some w => Cat_get_loss_values log cfg mid_batch_reset p s.done (some w) target_p

/-- The divisor of the beta-annealing interpolation:
`pri_beta_itr - min_itr_learn`. -/
def priBetaDivisor (min_itr_learn pri_beta_itr : ℕ) : ℤ :=
  (pri_beta_itr : ℤ) - (min_itr_learn : ℤ)

/-- The annealing progress as the source computes it:
`prog = min(1, max(0, itr - min_itr_learn) / (pri_beta_itr - min_itr_learn))`
— note `max` applies to the numerator only. -/
def priBetaProg (min_itr_learn pri_beta_itr : ℕ) (itr : ℤ) : ℚ :=
  min 1 (((max 0 (itr - (min_itr_learn : ℤ)) : ℤ) : ℚ) /
    ((priBetaDivisor min_itr_learn pri_beta_itr : ℤ) : ℚ))

/-- Method `DQN.update_itr_hyperparams(itr)`: when prioritized replay is on and
`itr <= pri_beta_itr`, anneals beta and calls `set_beta`.  A zero divisor
makes the Python division raise ZeroDivisionError, modelled as `none`. -/
def update_itr_hyperparams (cfg : DQNConfig) (min_itr_learn pri_beta_itr : ℕ)
    (itr : ℤ) : Option (List BufEvent) :=
  if cfg.prioritized_replay ∧ itr ≤ (pri_beta_itr : ℤ) then
    if priBetaDivisor min_itr_learn pri_beta_itr = 0 then none
    else
      some [BufEvent.setBeta
        (priBetaProg min_itr_learn pri_beta_itr itr * cfg.pri_beta_final +
          (1 - priBetaProg min_itr_learn pri_beta_itr itr) * cfg.pri_beta_init)]
  else some []

/-- Definition following the claim's wording (refinement reference): the
progress with `max(0, ·)` applied to the whole quotient,
`prog = min(1, max(0, (itr - min_itr_learn) / (pri_beta_itr - min_itr_learn)))`. -/
def specPriBetaProg (min_itr_learn pri_beta_itr : ℕ) (itr : ℤ) : ℚ :=
  min 1 (max 0 (((itr - (min_itr_learn : ℤ) : ℤ) : ℚ) /
    ((priBetaDivisor min_itr_learn pri_beta_itr : ℤ) : ℚ)))

/-- The beta value the claim says is set:
`prog * pri_beta_final + (1 - prog) * pri_beta_init` with the claim's
`prog`. -/
def specBetaValue (cfg : DQNConfig) (min_itr_learn pri_beta_itr : ℕ)
    (itr : ℤ) : ℚ :=
  specPriBetaProg min_itr_learn pri_beta_itr itr * cfg.pri_beta_final +
    (1 - specPriBetaProg min_itr_learn pri_beta_itr itr) * cfg.pri_beta_init

/-- Algorithm state established by `DQN.initialize` (the saved
configuration plus the derived iteration constants and the owned replay
buffer handle). -/
structure AlgoState where
  cfg : DQNConfig
  sampler_bs : ℕ
  min_itr_learn : ℕ
  updates_per_optimize : ℕ
  pri_beta_itr : ℕ
  update_counter : ℕ
  replay : ReplayState

/-- Method `DQN.initialize` (together with `optim_initialize`):
`min_itr_learn = int(min_steps_learn // sampler_bs)`,
`updates_per_optimize = max(1, round(replay_ratio * sampler_bs / batch_size))`,
`pri_beta_itr = max(1, pri_beta_steps // sampler_bs)`, `update_counter = 0`.
The allocated replay buffer is passed in as `rs`. -/
def DQN_algo_init (cfg : DQNConfig) (sampler_bs : ℕ) (rs : ReplayState) : AlgoState :=
  { cfg := cfg
    sampler_bs := sampler_bs
    min_itr_learn := cfg.min_steps_learn / sampler_bs
    updates_per_optimize :=
      (max 1 (pyRound (cfg.replay_ratio * (sampler_bs : ℚ) / (cfg.batch_size : ℚ)))).toNat
    pri_beta_itr := optim_pri_beta_itr cfg sampler_bs
    update_counter := 0
    replay := rs }

/-- The external collaborators invoked inside one gradient update:
`self.loss` (dispatched to the DQN or CategoricalDQN variant; see
`dqnLoss` / `catLoss`) and the gradient-norm value produced by the
optimizer step. -/
structure OracleFns where
  lossFn : ReplayBatch → Except String (ℚ × List ℚ)
  gradNormFn : ReplayBatch → ℚ

/-- Method `DQN._apply_optimization(samples_from_replay, opt_info)`: computes the
loss, steps the optimizer, calls `update_batch_priorities(td_abs_errors)`
iff prioritized replay is on, and extends the logging lists. -/
def _apply_optimization (orf : OracleFns) (cfg : DQNConfig) (b : ReplayBatch)
    (info : OptInfo) : Except String (OptInfo × List BufEvent) :=
  match orf.lossFn b with
  | Except.error e => Except.error e
  | Except.ok lt =>
      Except.ok
        ({ loss := info.loss ++ [lt.1]
           gradNorm := info.gradNorm ++ [orf.gradNormFn b]
           tdAbsErr := info.tdAbsErr ++ sliceStride8 lt.2 },
         if cfg.prioritized_replay then [BufEvent.updateBatchPriorities lt.2] else [])

/-- Result of the update loop of `optimize_agent`. -/
structure LoopResult where
  uc : ℕ
  rs : ReplayState
  info : OptInfo
  evs : List BufEvent

/-- The `for _ in range(updates_per_optimize)` loop of `optimize_agent`:
sample a batch, apply one optimization, bump `update_counter`, and update
the target network every `target_update_interval` updates (a zero
interval would make the Python modulo raise ZeroDivisionError). -/
def optLoop (orf : OracleFns) (cfg : DQNConfig) :
    ℕ → ℕ → ReplayState → OptInfo → Except String LoopResult
  | 0, uc, rs, info => Except.ok { uc := uc, rs := rs, info := info, evs := [] }
  | k + 1, uc, rs, info =>
      let b := (sample_batch rs).1
      let rs1 := (sample_batch rs).2
      match _apply_optimization orf cfg b info with
      | Except.error e => Except.error e
      | Except.ok oi =>
          if cfg.target_update_interval = 0 then Except.error "ZeroDivisionError"
          else
            match optLoop orf cfg k (uc + 1) rs1 oi.1 with
            | Except.error e => Except.error e
            | Except.ok r =>
                Except.ok
                  { uc := r.uc
                    rs := r.rs
                    info := r.info
                    evs := BufEvent.sampleBatch b :: oi.2 ++
                      (if (uc + 1) % cfg.target_update_interval = 0 then
                        [BufEvent.updateTarget cfg.target_update_tau]
                      else []) ++ r.evs }

/-- Method `DQN.optimize_agent(itr, samples, sampler_itr)`: uses `sampler_itr`
when given (async mode), stores the provided samples, returns the empty
`OptInfo` before `min_itr_learn` (`pre_optimize_process` is `pass`), and
otherwise runs the update loop followed by `update_itr_hyperparams`. -/
def optimize_agent (orf : OracleFns) (st : AlgoState) (itr : ℤ)
    (samples : Option Samples) (sampler_itr : Option ℤ) :
    Except String (AlgoState × OptInfo × List BufEvent) :=
  let itr := sampler_itr.getD itr
  match add_samples_to_buffer itr samples st.replay with
  | none => Except.error "AssertionError"
  | some rsEvs =>
      if itr < (st.min_itr_learn : ℤ) then
        Except.ok ({ st with replay := rsEvs.1 }, emptyOptInfo, rsEvs.2)
      else
        match optLoop orf st.cfg st.updates_per_optimize st.update_counter rsEvs.1 emptyOptInfo with
        | Except.error e => Except.error e
        | Except.ok r =>
            match update_itr_hyperparams st.cfg st.min_itr_learn st.pri_beta_itr itr with
            | none => Except.error "ZeroDivisionError"
            | some hevs =>
                Except.ok
                  ({ st with update_counter := r.uc, replay := r.rs },
                   r.info, rsEvs.2 ++ r.evs ++ hevs)

/-- Event trace of an `optimize_agent` result (empty if it raised). -/
def oaEvents (r : Except String (AlgoState × OptInfo × List BufEvent)) : List BufEvent :=
  match r with
  | Except.ok t => t.2.2
  | Except.error _ => []

/-- Returned `OptInfo` of an `optimize_agent` result. -/
def oaInfo (r : Except String (AlgoState × OptInfo × List BufEvent)) : Option OptInfo :=
  match r with
  | Except.ok t => some t.2.1
  | Except.error _ => none

/-- Replay-buffer contents after an `optimize_agent` result. -/
def oaData (r : Except String (AlgoState × OptInfo × List BufEvent)) :
    Option (List SamplesToBuffer) :=
  match r with
  | Except.ok t => some t.1.replay.data
  | Except.error _ => none

/-- Checker for the prioritized-replay protocol on the sample/update
subsequence of a trace: the calls strictly alternate
`sample_batch b; update_batch_priorities e` with `e` the error tensor the
loss function computed from that same batch `b`. -/
def priAlternationB (lossFn : ReplayBatch → Except String (ℚ × List ℚ)) :
    List BufEvent → Bool
  | [] => true
  | BufEvent.sampleBatch b :: BufEvent.updateBatchPriorities e :: rest =>
      (match lossFn b with
       | Except.ok lt => decide (e = lt.2)
       | Except.error _ => false) && priAlternationB lossFn rest
  | _ => false

/-- The `DQN.__init__` defaults (floats written as exact rationals),
used to build concrete configurations for evaluation. -/
def baseCfg : DQNConfig :=
  { discount := 99 / 100
    batch_size := 32
    min_steps_learn := 50000
    delta_clip := some 1
    replay_size := 1000000
    replay_ratio := 8
    target_update_tau := 1
    target_update_interval := 312
    n_step_return := 1
    learning_rate := 1 / 4000
    clip_grad_norm := 10
    eps_steps := 1000000
    double_dqn := false
    prioritized_replay := false
    pri_alpha := 3 / 5
    pri_beta_init := 2 / 5
    pri_beta_final := 1
    pri_beta_steps := 50000000
    default_priority := some 1
    ReplayBufferCls := none
    updates_per_sync := 1 }

/-- An arbitrary concrete replay batch (for evaluating the embedding). -/
def rbDefault : ReplayBatch :=
  { return_ := [], done := [], done_n := [], action := [], is_weights := [] }

/-- A concrete freshly-allocated replay buffer. -/
def rs0 : ReplayState :=
  { data := [], sampleStream := fun _ => rbDefault, sampleCount := 0, beta := 2 / 5 }

/-- A concrete loss/gradient oracle. -/
def or0 : OracleFns :=
  { lossFn := fun _ => Except.ok (0, [1]), gradNormFn := fun _ => 0 }

/-- Concrete configuration with a small warmup threshold. -/
def cfgC1 : DQNConfig := { baseCfg with min_steps_learn := 2 }

/-- Concrete prioritized configuration (`pri_beta_init = 2/5`,
`pri_beta_final = 1`). -/
def cfgPri : DQNConfig := { baseCfg with prioritized_replay := true }

/-- Concrete prioritized configuration that learns immediately and
updates its target network every step. -/
def cfgC3 : DQNConfig :=
  { baseCfg with
      prioritized_replay := true
      min_steps_learn := 0
      replay_ratio := 1
      batch_size := 1
      target_update_interval := 1
      pri_beta_steps := 5 }

/-- Concrete state after `initialize` for the protocol witness. -/
def stC3 : AlgoState := DQN_algo_init cfgC3 1 rs0

theorem convexCombBounds (i f t : ℚ) (h0 : 0 ≤ t) (h1 : t ≤ 1) :
    min i f ≤ t * f + (1 - t) * i ∧ t * f + (1 - t) * i ≤ max i f := by
  constructor
  · rcases le_total i f with h | h
    · rw [min_eq_left h]; nlinarith
    · rw [min_eq_right h]; nlinarith
  · rcases le_total i f with h | h
    · rw [max_eq_right h]; nlinarith
    · rw [max_eq_left h]; nlinarith

theorem specPriBetaProg_bounds (m p : ℕ) (itr : ℤ) :
    0 ≤ specPriBetaProg m p itr ∧ specPriBetaProg m p itr ≤ 1 := by
  unfold specPriBetaProg
  exact ⟨le_min (by norm_num) (le_max_left 0 _), min_le_left _ _⟩

theorem max_zero_div_pos (x d : ℚ) (hd : 0 < d) : max 0 x / d = max 0 (x / d) := by
  rcases le_total 0 x with h | h
  · rw [max_eq_right h, max_eq_right (div_nonneg h hd.le)]
  · rw [max_eq_left h, zero_div,
      max_eq_left (div_nonpos_of_nonpos_of_nonneg h hd.le)]

theorem priBetaDivisor_cast_pos (m p : ℕ) (h : m < p) :
    (0 : ℚ) < ((priBetaDivisor m p : ℤ) : ℚ) := by
  unfold priBetaDivisor
  push_cast
  have : (m : ℚ) < (p : ℚ) := by exact_mod_cast h
  linarith

theorem priBetaProg_eq_spec (m p : ℕ) (itr : ℤ) (h : m < p) :
    priBetaProg m p itr = specPriBetaProg m p itr := by
  unfold priBetaProg specPriBetaProg
  have hd := priBetaDivisor_cast_pos m p h
  rw [show ((max 0 (itr - (m : ℤ)) : ℤ) : ℚ) = max 0 ((itr - (m : ℤ) : ℤ) : ℚ) by
    push_cast; rfl]
  rw [max_zero_div_pos _ _ hd]

/-- C5: the learning target cuts the bootstrap with `done_n`: in
`DQN.loss` the target `y` equals the stored n-step return alone when
`done_n` is true and otherwise adds the target value discounted by
exactly `discount ^ n_step_return`; `CategoricalDQN.loss` applies the
same rule to every atom of the support, clamped to `[V_min, V_max]`. -/
theorem C5_bootstrap_cut (d tq r v_min v_max : ℚ) (n : ℕ) (z : List ℚ) :
    dqnTargetY d n r true tq = r ∧
    dqnTargetY d n r false tq = r + d ^ n * tq ∧
    catNextZ d n v_min v_max z r true = z.map (fun _ => clampQ r v_min v_max) ∧
    catNextZ d n v_min v_max z r false =
      z.map (fun zj => clampQ (r + d ^ n * zj) v_min v_max) := by
  refine ⟨?_, ?_, ?_, ?_⟩
  · unfold dqnTargetY b2q; norm_num
  · unfold dqnTargetY b2q; norm_num
  · unfold catNextZ
    refine List.map_congr_left (fun a _ => ?_)
    unfold b2q; norm_num
  · unfold catNextZ
    refine List.map_congr_left (fun a _ => ?_)
    unfold b2q
    norm_num [mul_comm]

/-- C7: `initialize_replay_buffer` selects the buffer class as a pure
function of `(prioritized_replay, async_)` — exactly one of the four
frame-buffer classes — unless an explicit `ReplayBufferCls` overrides
the selection; the kwargs `alpha = pri_alpha`, `beta = pri_beta_init`
and `default_priority` are passed iff `prioritized_replay`, and
`__init__` resolves `default_priority = None` to `delta_clip`. -/
theorem C7_replay_class_selection (cfg : DQNConfig) (envB : ℕ) (async_ : Bool) :
    (init_replay_buffer cfg envB async_).1 =
      (match cfg.ReplayBufferCls with
       | some cid => SelectedReplayCls.custom cid
       | none => SelectedReplayCls.base (specReplayClsFor cfg.prioritized_replay async_)) ∧
    (init_replay_buffer cfg envB async_).2.alpha =
      (if cfg.prioritized_replay then some cfg.pri_alpha else none) ∧
    (init_replay_buffer cfg envB async_).2.beta =
      (if cfg.prioritized_replay then some cfg.pri_beta_init else none) ∧
    (init_replay_buffer cfg envB async_).2.default_priority =
      (if cfg.prioritized_replay then some cfg.default_priority else none) ∧
    (DQN_mk cfg).default_priority =
      (match cfg.default_priority with
       | some v => some v
       | none => cfg.delta_clip) := by
  unfold init_replay_buffer specReplayClsFor DQN_mk resolve_default_priority
  rcases hpri : cfg.prioritized_replay <;> rcases async_ <;> simp [hpri]

/-- C9: the beta-annealing interpolation divides by
`pri_beta_itr - min_itr_learn`; that divisor is nonzero iff
`min_itr_learn ≠ pri_beta_itr` (no code checks this), and under the
hypothesis `min_itr_learn < pri_beta_itr` (with
`pri_beta_itr = max(1, pri_beta_steps // sampler_bs)` from
`optim_initialize`) the progress is well-defined and lies in `[0, 1]`. -/
theorem C9_divisor_and_prog (cfg : DQNConfig) (bs m : ℕ) (itr : ℤ)
    (h : m < optim_pri_beta_itr cfg bs) :
    optim_pri_beta_itr cfg bs = max 1 (cfg.pri_beta_steps / bs) ∧
    priBetaDivisor m (optim_pri_beta_itr cfg bs) ≠ 0 ∧
    (∀ p : ℕ, priBetaDivisor m p ≠ 0 ↔ m ≠ p) ∧
    0 ≤ priBetaProg m (optim_pri_beta_itr cfg bs) itr ∧
    priBetaProg m (optim_pri_beta_itr cfg bs) itr ≤ 1 := by
  refine ⟨rfl, ?_, ?_, ?_, ?_⟩
  · unfold priBetaDivisor; omega
  · intro p; unfold priBetaDivisor; omega
  · rw [priBetaProg_eq_spec _ _ _ h]; exact (specPriBetaProg_bounds _ _ _).1
  · rw [priBetaProg_eq_spec _ _ _ h]; exact (specPriBetaProg_bounds _ _ _).2

theorem C9_witness :
    (0 : ℕ) < optim_pri_beta_itr { baseCfg with pri_beta_steps := 2 } 1 ∧
    (optim_pri_beta_itr { baseCfg with pri_beta_steps := 2 } 1 =
        max 1 ({ baseCfg with pri_beta_steps := 2 } : DQNConfig).pri_beta_steps / 1 ∧
      priBetaDivisor 0 (optim_pri_beta_itr { baseCfg with pri_beta_steps := 2 } 1) ≠ 0 ∧
      (∀ p : ℕ, priBetaDivisor 0 p ≠ 0 ↔ 0 ≠ p) ∧
      0 ≤ priBetaProg 0 (optim_pri_beta_itr { baseCfg with pri_beta_steps := 2 } 1) 1 ∧
      priBetaProg 0 (optim_pri_beta_itr { baseCfg with pri_beta_steps := 2 } 1) 1 ≤ 1) :=
  ⟨by decide, C9_divisor_and_prog { baseCfg with pri_beta_steps := 2 } 1 0 1 (by decide)⟩

/-- C2 (amended): provided `min_itr_learn < pri_beta_itr`, whenever
prioritized replay is enabled and `itr <= pri_beta_itr`,
`update_itr_hyperparams` calls `set_beta` with the claimed linear
interpolation `prog * pri_beta_final + (1 - prog) * pri_beta_init`
(`prog = min(1, max(0, (itr - min_itr_learn) / (pri_beta_itr - min_itr_learn)))`),
every beta value set lies between `pri_beta_init` and `pri_beta_final`,
the value equals `pri_beta_final` exactly at `itr = pri_beta_itr`, and
`set_beta` is never called for `itr > pri_beta_itr`. -/
theorem C2_beta_annealing (cfg : DQNConfig) (m p : ℕ) (itr : ℤ)
    (hpri : cfg.prioritized_replay = true) (hmp : m < p) :
    (itr ≤ (p : ℤ) →
      update_itr_hyperparams cfg m p itr =
        some [BufEvent.setBeta (specBetaValue cfg m p itr)] ∧
      min cfg.pri_beta_init cfg.pri_beta_final ≤ specBetaValue cfg m p itr ∧
      specBetaValue cfg m p itr ≤ max cfg.pri_beta_init cfg.pri_beta_final ∧
      (itr = (p : ℤ) → specBetaValue cfg m p itr = cfg.pri_beta_final)) ∧
    ((p : ℤ) < itr → update_itr_hyperparams cfg m p itr = some []) := by
  have hdz : ¬ priBetaDivisor m p = 0 := by unfold priBetaDivisor; omega
  constructor
  · intro hle
    refine ⟨?_, ?_, ?_, ?_⟩
    · unfold update_itr_hyperparams
      rw [if_pos ⟨hpri, hle⟩, if_neg hdz, priBetaProg_eq_spec m p itr hmp]
      rfl
    · exact (convexCombBounds cfg.pri_beta_init cfg.pri_beta_final _
        (specPriBetaProg_bounds m p itr).1 (specPriBetaProg_bounds m p itr).2).1
    · exact (convexCombBounds cfg.pri_beta_init cfg.pri_beta_final _
        (specPriBetaProg_bounds m p itr).1 (specPriBetaProg_bounds m p itr).2).2
    · intro hitr
      have hdq : ((priBetaDivisor m p : ℤ) : ℚ) ≠ 0 :=
        ne_of_gt (priBetaDivisor_cast_pos m p hmp)
      have hprog : specPriBetaProg m p itr = 1 := by
        subst hitr
        unfold specPriBetaProg priBetaDivisor
        unfold priBetaDivisor at hdq
        rw [div_self hdq]
        norm_num
      unfold specBetaValue
      rw [hprog]; ring
  · intro hgt
    unfold update_itr_hyperparams
    rw [if_neg (fun hc => absurd hc.2 (not_le.mpr hgt))]

theorem C2_witness :
    cfgPri.prioritized_replay = true ∧ (0 : ℕ) < 1 ∧
    (((1 : ℤ) ≤ ((1 : ℕ) : ℤ) →
        update_itr_hyperparams cfgPri 0 1 1 =
          some [BufEvent.setBeta (specBetaValue cfgPri 0 1 1)] ∧
        min cfgPri.pri_beta_init cfgPri.pri_beta_final ≤ specBetaValue cfgPri 0 1 1 ∧
        specBetaValue cfgPri 0 1 1 ≤ max cfgPri.pri_beta_init cfgPri.pri_beta_final ∧
        ((1 : ℤ) = ((1 : ℕ) : ℤ) → specBetaValue cfgPri 0 1 1 = cfgPri.pri_beta_final)) ∧
      (((1 : ℕ) : ℤ) < 1 → update_itr_hyperparams cfgPri 0 1 1 = some [])) :=
  ⟨rfl, by decide, C2_beta_annealing cfgPri 0 1 1 rfl (by decide)⟩

theorem C2_counterexample :
    update_itr_hyperparams cfgPri 2 1 1 = some [BufEvent.setBeta (2 / 5)] ∧
    specBetaValue cfgPri 2 1 1 = 1 ∧
    ((2 : ℚ) / 5) ≠ 1 ∧
    update_itr_hyperparams cfgPri 1 1 1 = none := by
  refine ⟨?_, ?_, by norm_num, ?_⟩
  · have h1 : priBetaProg 2 1 1 = 0 := by
      unfold priBetaProg priBetaDivisor; norm_num
    unfold update_itr_hyperparams
    rw [if_pos ⟨rfl, by norm_num⟩, if_neg (by unfold priBetaDivisor; norm_num), h1]
    norm_num [cfgPri, baseCfg]
  · unfold specBetaValue specPriBetaProg priBetaDivisor
    norm_num [cfgPri, baseCfg]
  · unfold update_itr_hyperparams
    rw [if_pos ⟨rfl, by norm_num⟩, if_pos (by unfold priBetaDivisor; norm_num)]

theorem optimize_agent_warmup_eq (orf : OracleFns) (st : AlgoState) (itr : ℤ)
    (samples : Option Samples) (h0 : 0 ≤ itr) (hlt : itr < (st.min_itr_learn : ℤ)) :
    optimize_agent orf st itr samples none =
      Except.ok ({ st with replay := appendRS samples st.replay }, emptyOptInfo,
        appendEvs samples) := by
  unfold optimize_agent add_samples_to_buffer
  simp only [Option.getD, if_pos h0, if_pos hlt]

theorem containsSampleEv_appendEvs (samples : Option Samples) :
    containsSampleEv (appendEvs samples) = false := by
  cases samples <;> simp [containsSampleEv, appendEvs, isSampleEv]

/-- C1: for every iteration `0 ≤ itr < min_itr_learn` (with
`min_itr_learn = min_steps_learn // sampler_bs` computed at
initialization), `optimize_agent` appends any provided samples to the
replay buffer, performs no `sample_batch` call, and returns the empty
`OptInfo`; a `sample_batch` call can occur only once
`itr ≥ min_itr_learn`. -/
theorem C1_warmup_no_sampling (orf : OracleFns) (cfg : DQNConfig) (bs : ℕ)
    (rs : ReplayState) (itr : ℤ) (samples : Option Samples)
    (h0 : 0 ≤ itr)
    (hlt : itr < ((DQN_algo_init cfg bs rs).min_itr_learn : ℤ)) :
    (DQN_algo_init cfg bs rs).min_itr_learn = cfg.min_steps_learn / bs ∧
    oaInfo (optimize_agent orf (DQN_algo_init cfg bs rs) itr samples none) =
      some emptyOptInfo ∧
    oaEvents (optimize_agent orf (DQN_algo_init cfg bs rs) itr samples none) =
      appendEvs samples ∧
    oaData (optimize_agent orf (DQN_algo_init cfg bs rs) itr samples none) =
      some (appendRS samples (DQN_algo_init cfg bs rs).replay).data ∧
    containsSampleEv (appendEvs samples) = false ∧
    (∀ j : ℤ, 0 ≤ j →
      containsSampleEv
        (oaEvents (optimize_agent orf (DQN_algo_init cfg bs rs) j samples none)) = true →
      ((DQN_algo_init cfg bs rs).min_itr_learn : ℤ) ≤ j) := by
  refine ⟨rfl, ?_, ?_, ?_, containsSampleEv_appendEvs samples, ?_⟩
  · rw [optimize_agent_warmup_eq orf _ itr samples h0 hlt]; rfl
  · rw [optimize_agent_warmup_eq orf _ itr samples h0 hlt]; rfl
  · rw [optimize_agent_warmup_eq orf _ itr samples h0 hlt]; rfl
  · intro j hj0 hct
    by_contra hjlt
    push_neg at hjlt
    rw [optimize_agent_warmup_eq orf _ j samples hj0 hjlt] at hct
    rw [show oaEvents (Except.ok
        ({ DQN_algo_init cfg bs rs with
            replay := appendRS samples (DQN_algo_init cfg bs rs).replay },
          emptyOptInfo, appendEvs samples)) = appendEvs samples from rfl] at hct
    rw [containsSampleEv_appendEvs samples] at hct
    exact Bool.false_ne_true hct

theorem C1_witness :
    (0 : ℤ) ≤ 0 ∧ (0 : ℤ) < ((DQN_algo_init cfgC1 1 rs0).min_itr_learn : ℤ) ∧
    ((DQN_algo_init cfgC1 1 rs0).min_itr_learn = cfgC1.min_steps_learn / 1 ∧
      oaInfo (optimize_agent or0 (DQN_algo_init cfgC1 1 rs0) 0 none none) =
        some emptyOptInfo ∧
      oaEvents (optimize_agent or0 (DQN_algo_init cfgC1 1 rs0) 0 none none) =
        appendEvs none ∧
      oaData (optimize_agent or0 (DQN_algo_init cfgC1 1 rs0) 0 none none) =
        some (appendRS none (DQN_algo_init cfgC1 1 rs0).replay).data ∧
      containsSampleEv (appendEvs none) = false ∧
      (∀ j : ℤ, 0 ≤ j →
        containsSampleEv
          (oaEvents (optimize_agent or0 (DQN_algo_init cfgC1 1 rs0) j none none)) = true →
        ((DQN_algo_init cfgC1 1 rs0).min_itr_learn : ℤ) ≤ j)) :=
  ⟨le_refl 0, by decide,
    C1_warmup_no_sampling or0 cfgC1 1 rs0 0 none (le_refl 0) (by decide)⟩

theorem update_itr_hyperparams_events (cfg : DQNConfig) (m p : ℕ) (itr : ℤ)
    (evs : List BufEvent) (h : update_itr_hyperparams cfg m p itr = some evs) :
    priEvents evs = [] ∧ containsUpdPriEv evs = false ∧
    containsAppendEv evs = false ∧ containsSampleEv evs = false := by
  unfold update_itr_hyperparams at h
  split at h
  · split at h
    · exact absurd h (by simp)
    · cases h
      simp [priEvents, containsUpdPriEv, containsAppendEv, containsSampleEv,
        isPriEv, isSampleEv, isUpdPriEv, isAppendEv]
  · cases h
    simp [priEvents, containsUpdPriEv, containsAppendEv, containsSampleEv]

theorem optLoop_trace_facts (orf : OracleFns) (cfg : DQNConfig) :
    ∀ (fuel uc : ℕ) (rs : ReplayState) (info : OptInfo) (r : LoopResult),
      optLoop orf cfg fuel uc rs info = Except.ok r →
      (cfg.prioritized_replay = true →
        priAlternationB orf.lossFn (priEvents r.evs) = true) ∧
      (cfg.prioritized_replay = false → containsUpdPriEv r.evs = false) ∧
      containsAppendEv r.evs = false ∧
      r.rs.data = rs.data := by
  intro fuel
  induction fuel with
  | zero =>
    intro uc rs info r h
    simp only [optLoop] at h
    cases h
    simp [priEvents, priAlternationB, containsUpdPriEv, containsAppendEv]
  | succ k ih =>
    intro uc rs info r h
    simp only [optLoop] at h
    unfold _apply_optimization at h
    split at h
    · exact absurd h (by simp)
    next lt hl =>
      split at h
      · exact absurd h (by simp)
      next htui =>
        split at h
        · exact absurd h (by simp)
        next r' hrec =>
          cases h
          obtain ⟨ih1, ih2, ih3, ih4⟩ := ih (uc + 1) _ _ r' hrec
          rcases hlf : orf.lossFn (sample_batch rs).1 with e | lp
          · rw [hlf] at hl
            exact absurd hl (by simp)
          · rw [hlf] at hl
            injection hl with hl
            subst hl
            refine ⟨?_, ?_, ?_, ?_⟩
            · intro hp
              have ih1' : priAlternationB orf.lossFn (List.filter isPriEv r'.evs) = true :=
                ih1 hp
              by_cases h8 : (uc + 1) % cfg.target_update_interval = 0 <;>
                simp [priEvents, List.filter_append, List.filter_cons, hp, h8,
                  isPriEv, isSampleEv, isUpdPriEv, isAppendEv, priAlternationB,
                  hlf, ih1']
            · intro hp
              have := ih2 hp
              by_cases h8 : (uc + 1) % cfg.target_update_interval = 0 <;>
                simp_all [containsUpdPriEv, isUpdPriEv, hp, h8]
            · by_cases hp : cfg.prioritized_replay <;>
                by_cases h8 : (uc + 1) % cfg.target_update_interval = 0 <;>
                simp_all [containsAppendEv, isAppendEv]
            · simpa [sample_batch] using ih4

/-- C10: `add_samples_to_buffer` with `samples = None` leaves the replay
buffer unchanged (and so does `optimize_agent`): `append_samples` is
invoked only when samples are provided, and the `assert itr >= 0` means
the append step never executes for a negative iteration number. -/
theorem C10_append_frame (itr : ℤ) (rs : ReplayState) (orf : OracleFns)
    (st : AlgoState) (h0 : 0 ≤ itr) :
    add_samples_to_buffer itr none rs = some (rs, []) ∧
    (∀ s, add_samples_to_buffer itr (some s) rs =
      some ({ rs with data := rs.data ++ [samples_to_buffer s] },
        [BufEvent.appendSamples (samples_to_buffer s)])) ∧
    (∀ j : ℤ, j < 0 → ∀ sm, add_samples_to_buffer j sm rs = none) ∧
    (∀ st' info evs,
      optimize_agent orf st itr none none = Except.ok (st', info, evs) →
      st'.replay.data = st.replay.data ∧ containsAppendEv evs = false) := by
  refine ⟨?_, ?_, ?_, ?_⟩
  · unfold add_samples_to_buffer
    rw [if_pos h0]
    rfl
  · intro s
    unfold add_samples_to_buffer
    rw [if_pos h0]
    rfl
  · intro j hj sm
    unfold add_samples_to_buffer
    rw [if_neg (not_le.mpr hj)]
  · intro st' info evs h
    unfold optimize_agent add_samples_to_buffer at h
    simp only [Option.getD, if_pos h0] at h
    split at h
    · cases h
      exact ⟨rfl, by simp [appendEvs, containsAppendEv]⟩
    · split at h
      · exact absurd h (by simp)
      next r hloop =>
        split at h
        · exact absurd h (by simp)
        next hevs hupd =>
          cases h
          obtain ⟨-, -, l3, l4⟩ := optLoop_trace_facts orf st.cfg _ _ _ _ r hloop
          obtain ⟨-, -, u3, -⟩ := update_itr_hyperparams_events st.cfg _ _ _ _ hupd
          constructor
          · exact l4.trans rfl
          · simp [containsAppendEv, appendEvs] at *
            exact ⟨l3, u3⟩

theorem C10_witness :
    (0 : ℤ) ≤ 0 ∧
    (add_samples_to_buffer 0 none rs0 = some (rs0, []) ∧
      (∀ s, add_samples_to_buffer 0 (some s) rs0 =
        some ({ rs0 with data := rs0.data ++ [samples_to_buffer s] },
          [BufEvent.appendSamples (samples_to_buffer s)])) ∧
      (∀ j : ℤ, j < 0 → ∀ sm, add_samples_to_buffer j sm rs0 = none) ∧
      (∀ st' info evs,
        optimize_agent or0 (DQN_algo_init cfgC1 1 rs0) 0 none none =
          Except.ok (st', info, evs) →
        st'.replay.data = (DQN_algo_init cfgC1 1 rs0).replay.data ∧
        containsAppendEv evs = false)) :=
  ⟨le_refl 0, C10_append_frame 0 rs0 or0 (DQN_algo_init cfgC1 1 rs0) (le_refl 0)⟩

/-- C3: in `optimize_agent`, whenever prioritized replay is enabled,
the `sample_batch` / `update_batch_priorities` calls strictly alternate,
each update being the unique one for the immediately preceding sample,
with exactly the error tensor the loss function computed from that same
batch (the TD absolute errors for `DQN.loss`, the KL divergences for
`CategoricalDQN.loss`); when prioritized replay is disabled,
`update_batch_priorities` is never called. -/
theorem C3_priority_update_protocol (orf : OracleFns) (st : AlgoState) (itr : ℤ)
    (samples : Option Samples) (st' : AlgoState) (info : OptInfo)
    (evs : List BufEvent)
    (h : optimize_agent orf st itr samples none = Except.ok (st', info, evs)) :
    (st.cfg.prioritized_replay = true →
      priAlternationB orf.lossFn (priEvents evs) = true) ∧
    (st.cfg.prioritized_replay = false → containsUpdPriEv evs = false) := by
  unfold optimize_agent at h
  simp only [Option.getD] at h
  rcases hadd : add_samples_to_buffer itr samples st.replay with _ | rsEvs
  · simp only [hadd] at h
    exact absurd h (by simp)
  · simp only [hadd] at h
    have hevs2 : rsEvs.2 = appendEvs samples := by
      unfold add_samples_to_buffer at hadd
      split at hadd
      · cases hadd; rfl
      · exact absurd hadd (by simp)
    split at h
    · cases h
      rw [hevs2]
      constructor <;> intro hp <;> cases samples <;>
        simp [priEvents, appendEvs, priAlternationB, containsUpdPriEv,
          isPriEv, isSampleEv, isUpdPriEv]
    · split at h
      · exact absurd h (by simp)
      next r hloop =>
        split at h
        · exact absurd h (by simp)
        next hevs hupd =>
          cases h
          obtain ⟨l1, l2, -, -⟩ := optLoop_trace_facts orf st.cfg _ _ _ _ r hloop
          obtain ⟨u1, u2, -, -⟩ := update_itr_hyperparams_events st.cfg _ _ _ _ hupd
          rw [hevs2]
          constructor
          · intro hp
            have l1' := l1 hp
            have hap : List.filter isPriEv (appendEvs samples) = [] := by
              cases samples <;> simp [appendEvs, isPriEv, isSampleEv, isUpdPriEv]
            have hu : List.filter isPriEv hevs = [] := u1
            simp only [priEvents, List.filter_append, hap, hu, List.nil_append,
              List.append_nil] at *
            exact l1'
          · intro hp
            have l2' := l2 hp
            have hap : (appendEvs samples).any isUpdPriEv = false := by
              cases samples <;> simp [appendEvs, isUpdPriEv]
            have hu : hevs.any isUpdPriEv = false := u2
            simp only [containsUpdPriEv, List.any_append] at *
            simp [hap, hu, l2']

/-- Hand-built state (as after `initialize` with sampler batch size 1)
used to exercise the prioritized protocol on a concrete run. -/
def stLit : AlgoState :=
  { cfg := cfgC3
    sampler_bs := 1
    min_itr_learn := 0
    updates_per_optimize := 1
    pri_beta_itr := 5
    update_counter := 0
    replay := rs0 }

theorem C3_witness :
    priAlternationB or0.lossFn
      (priEvents (oaEvents (optimize_agent or0 stLit 0 none none))) = true := by
  have h := (C3_priority_update_protocol or0 stLit 0 none _ _ _ rfl).1 rfl
  exact h

/-- C4: with `mid_batch_reset = False`, the non-distributional
`DQN._get_loss_values` (hence `DQN.loss`) raises `NotImplementedError`
for every input, whereas `CategoricalDQN._get_loss_values` instead
computes a validity mask via `valid_from_done`, returns the valid-masked
mean loss, and multiplies the KL errors by the mask. -/
theorem C4_mid_batch_reset_paths (cfg : DQNConfig) (log : ℚ → ℚ)
    (ao : AgentOutputs) (s : ReplayBatch) (p tp : List (List ℚ))
    (done : List Bool) (w : List ℚ) :
    dqnLoss cfg false ao s = Except.error "NotImplementedError" ∧
    Cat_get_loss_values log cfg false p done (some w) tp =
      Except.ok
        (valid_mean (weightedCatLosses cfg log p tp w) (valid_from_done done),
          List.zipWith (fun k v => k * v) (catKL log p tp) (valid_from_done done)) := by
  constructor
  · unfold dqnLoss DQN_get_loss_values applyPriWeights
    rcases hp : cfg.prioritized_replay with _ | _ <;> simp [hp]
  · unfold Cat_get_loss_values applyPriWeights weightedCatLosses
    rcases hp : cfg.prioritized_replay with _ | _ <;> simp [hp]

theorem dqn_errs_true (cfg : DQNConfig) (q target : List ℚ) (done : List Bool)
    (w : Option (List ℚ)) :
    errsOf (DQN_get_loss_values cfg true q done w target) = [] ∨
    errsOf (DQN_get_loss_values cfg true q done w target) =
      clampTd cfg.delta_clip
        ((List.zipWith (fun t qi => t - qi) target q).map (fun d => |d|)) := by
  unfold DQN_get_loss_values
  split
  next h => exact absurd h (by simp)
  next =>
    dsimp only
    split
    · left; rfl
    · right; rfl

theorem cat_errs_true (log : ℚ → ℚ) (cfg : DQNConfig) (p tp : List (List ℚ))
    (done : List Bool) (w : Option (List ℚ)) :
    errsOf (Cat_get_loss_values log cfg true p done w tp) = [] ∨
    errsOf (Cat_get_loss_values log cfg true p done w tp) = catKL log p tp := by
  unfold Cat_get_loss_values
  split
  · left; rfl
  · right; simp [errsOf]

theorem clampTd_mem_bounds (cfg : DQNConfig) (l : List ℚ)
    (hclip : ∀ c, cfg.delta_clip = some c → 0 ≤ c)
    (hl : ∀ x ∈ l, 0 ≤ x) :
    ∀ e ∈ clampTd cfg.delta_clip l,
      0 ≤ e ∧ ∀ c, cfg.delta_clip = some c → e ≤ c := by
  intro e he
  rcases hdc : cfg.delta_clip with _ | c
  · simp only [clampTd, hdc] at he
    refine ⟨hl e he, ?_⟩
    intro c hc
    exact absurd hc (by simp)
  · simp only [clampTd, hdc, List.mem_map] at he
    obtain ⟨x, -, rfl⟩ := he
    unfold clampQ
    refine ⟨le_min (le_max_right _ _) (hclip c hdc), fun c' hc' => ?_⟩
    injection hc' with hcc
    subst hcc
    exact min_le_right _ _

theorem catKL_mem_bounds (log : ℚ → ℚ) (p tp : List (List ℚ)) :
    ∀ e ∈ catKL log p tp, EPS ≤ e ∧ e ≤ 1 / EPS := by
  intro e he
  unfold catKL at he
  simp only [List.mem_map] at he
  obtain ⟨k, -, rfl⟩ := he
  unfold clampQ
  exact ⟨le_min (le_max_right _ _) (by norm_num [EPS]), min_le_right _ _⟩

/-- C6 (amended): on the implemented (`mid_batch_reset = True`) path,
every per-sample error passed to `update_batch_priorities` is
nonnegative — lying in `[0, delta_clip]` for the DQN variant when
`delta_clip` is set, with zero attainable — while the CategoricalDQN
variant's clamped KL divergences are strictly positive (in
`[EPS, 1/EPS]`). -/
theorem C6_error_bounds (cfg : DQNConfig) (log : ℚ → ℚ) (q target : List ℚ)
    (done : List Bool) (w : Option (List ℚ)) (p tp : List (List ℚ))
    (hclip : ∀ c, cfg.delta_clip = some c → 0 ≤ c) :
    (∀ e ∈ errsOf (DQN_get_loss_values cfg true q done w target),
      0 ≤ e ∧ ∀ c, cfg.delta_clip = some c → e ≤ c) ∧
    (∀ e ∈ errsOf (Cat_get_loss_values log cfg true p done w tp),
      EPS ≤ e ∧ e ≤ 1 / EPS ∧ 0 < e) := by
  constructor
  · rcases dqn_errs_true cfg q target done w with h | h
    · rw [h]; intro e he; simp at he
    · rw [h]
      refine clampTd_mem_bounds cfg _ hclip ?_
      intro x hx
      simp only [List.mem_map] at hx
      obtain ⟨d, -, rfl⟩ := hx
      exact abs_nonneg d
  · rcases cat_errs_true log cfg p tp done w with h | h
    · rw [h]; intro e he; simp at he
    · rw [h]
      intro e he
      obtain ⟨h1, h2⟩ := catKL_mem_bounds log p tp e he
      exact ⟨h1, h2, lt_of_lt_of_le (by norm_num [EPS]) h1⟩

theorem C6_witness :
    (∀ c : ℚ, baseCfg.delta_clip = some c → 0 ≤ c) ∧
    ((∀ e ∈ errsOf (DQN_get_loss_values baseCfg true [0] [false] none [2]),
        0 ≤ e ∧ ∀ c, baseCfg.delta_clip = some c → e ≤ c) ∧
      (∀ e ∈ errsOf
          (Cat_get_loss_values (fun _ => 0) baseCfg true [[1]] [false] none [[1]]),
        EPS ≤ e ∧ e ≤ 1 / EPS ∧ 0 < e)) := by
  have hcl : ∀ c : ℚ, baseCfg.delta_clip = some c → 0 ≤ c := by
    intro c hc
    rw [show baseCfg.delta_clip = some 1 from rfl] at hc
    injection hc with hc
    subst hc
    norm_num
  exact ⟨hcl, C6_error_bounds baseCfg (fun _ => 0) [0] [2] [false] none [[1]] [[1]] hcl⟩

theorem C6_counterexample :
    errsOf (DQN_get_loss_values baseCfg true [5] [false] none [5]) = [0] ∧
    ¬ (∀ e ∈ errsOf (DQN_get_loss_values baseCfg true [5] [false] none [5]),
        0 < e) := by
  have h : errsOf (DQN_get_loss_values baseCfg true [5] [false] none [5]) = [0] := by
    simp [DQN_get_loss_values, errsOf, applyPriWeights, clampTd, huberize,
      clampQ, baseCfg, List.zipWith, List.map]
  refine ⟨h, fun hall => ?_⟩
  have h0 := hall 0 (by rw [h]; exact List.mem_singleton_self 0)
  exact lt_irrefl 0 h0

/-- C8 (amended): on the `mid_batch_reset = True` path, the
KL-divergence error tensor `CategoricalDQN._get_loss_values` returns for
prioritization is elementwise clamped to `[1e-6, 1e6]`, so every
reported error is strictly positive and bounded above for any value of
the (NaN-guard clamped) log terms; with `mid_batch_reset = False` the
clamped values are additionally multiplied by the validity mask, which
can zero them (see the counterexample). -/
theorem C8_kl_clamp_bounds (log : ℚ → ℚ) (cfg : DQNConfig)
    (p tp : List (List ℚ)) (done : List Bool) (w : Option (List ℚ)) :
    ∀ e ∈ errsOf (Cat_get_loss_values log cfg true p done w tp),
      (1 / 1000000 : ℚ) ≤ e ∧ e ≤ 1000000 ∧ 0 < e := by
  intro e he
  rcases cat_errs_true log cfg p tp done w with h | h
  · rw [h] at he
    simp at he
  · rw [h] at he
    obtain ⟨h1, h2⟩ := catKL_mem_bounds log p tp e he
    refine ⟨?_, ?_, ?_⟩
    · calc (1 / 1000000 : ℚ) = EPS := by norm_num [EPS]
        _ ≤ e := h1
    · calc e ≤ 1 / EPS := h2
        _ = 1000000 := by norm_num [EPS]
    · refine lt_of_lt_of_le ?_ h1
      norm_num [EPS]

theorem C8_witness :
    EPS ∈ errsOf
      (Cat_get_loss_values (fun _ => 0) baseCfg true [[1]] [false] none [[1]]) ∧
    ((1 / 1000000 : ℚ) ≤ EPS ∧ EPS ≤ 1000000 ∧ 0 < EPS) := by
  have hm : EPS ∈ errsOf
      (Cat_get_loss_values (fun _ => 0) baseCfg true [[1]] [false] none [[1]]) := by
    simp [Cat_get_loss_values, errsOf, applyPriWeights, catKL, catLosses,
      catClampP, clampQ, baseCfg, EPS, List.zipWith, List.map]
    norm_num
  exact ⟨hm,
    C8_kl_clamp_bounds (fun _ => 0) baseCfg [[1]] [[1]] [false] none EPS hm⟩

theorem C8_counterexample :
    errsOf (Cat_get_loss_values (fun _ => 0) cfgPri false [[1], [1]]
      [true, false] (some [1, 1]) [[1], [1]]) = [EPS, 0] ∧
    ¬ (∀ e ∈ errsOf (Cat_get_loss_values (fun _ => 0) cfgPri false [[1], [1]]
        [true, false] (some [1, 1]) [[1], [1]]),
      (1 / 1000000 : ℚ) ≤ e ∧ e ≤ 1000000) := by
  have h : errsOf (Cat_get_loss_values (fun _ => 0) cfgPri false [[1], [1]]
      [true, false] (some [1, 1]) [[1], [1]]) = [EPS, 0] := by
    simp [Cat_get_loss_values, errsOf, applyPriWeights, catKL, catLosses,
      catClampP, clampQ, valid_from_done, cfgPri, baseCfg, EPS,
      List.zipWith, List.map, List.range, List.take, List.any]
    norm_num
  refine ⟨h, fun hall => ?_⟩
  have h0 := hall 0 (by rw [h]; simp)
  have : ¬ (1 / 1000000 : ℚ) ≤ 0 := by norm_num
  exact this h0.1
